import Mathlib

/-!
# Shallow embedding of the 5ire intellichat provider adapters

This file embeds, in Lean, the message-conversion layer of the 5ire chat
application's provider adapters (`AnthropicChatService`, `OllamaChatService`,
`DeepSeekChatService`): the data model for request messages and content parts,
`makeToolMessages`, `makeMessages`, `convertPromptContent` and `makePayload`,
and proves properties of them.

JavaScript objects are modelled by Lean structures with `Option` fields for
fields that may be absent (`undefined`); async functions that may reject are
modelled in the `Option` monad (`none` = the promise rejected / an exception
was thrown).  External collaborators that are not part of the embedded sources
(HTML splitting, image fetching, the MCP resource host) are abstracted into a
record of injected functions (`Utils`).
-/

set_option maxHeartbeats 1000000

/-- A minimal JSON value model, standing for the JavaScript values that flow
through `JSON.stringify` and tool-call arguments. -/
inductive Json where
  | null : Json
  | bool (b : Bool) : Json
  | num (n : Int) : Json
  | str (s : String) : Json
  | arr (xs : List Json) : Json
  | obj (fields : List (String × Json)) : Json
deriving Repr

/-- Escape one character for JSON output (quote and backslash, the cases
exercised here). -/
def jsonEscapeList : List Char → String
  | [] => ""
  | c :: cs =>
      (if c = '"' then "\\\"" else if c = '\\' then "\\\\" else String.singleton c)
        ++ jsonEscapeList cs

/-- Escape a string for JSON output. -/
def jsonEscape (s : String) : String :=
  jsonEscapeList s.data

mutual
/-- Model of JavaScript `JSON.stringify` on the `Json` value model. -/
def Json.stringify : Json → String
  | .null => "null"
  | .bool true => "true"
  | .bool false => "false"
  | .num n => toString n
  | .str s => "\"" ++ jsonEscape s ++ "\""
  | .arr xs => "[" ++ Json.stringifyList xs ++ "]"
  | .obj fs => "\x7b" ++ Json.stringifyFields fs ++ "\x7d"

/-- Comma-separated serialization of a JSON array's elements. -/
def Json.stringifyList : List Json → String
  | [] => ""
  | [x] => Json.stringify x
  | x :: xs => Json.stringify x ++ "," ++ Json.stringifyList xs

/-- Comma-separated serialization of a JSON object's fields. -/
def Json.stringifyFields : List (String × Json) → String
  | [] => ""
  | [(k, v)] => "\"" ++ jsonEscape k ++ "\":" ++ Json.stringify v
  | (k, v) :: fs =>
      "\"" ++ jsonEscape k ++ "\":" ++ Json.stringify v ++ "," ++
        Json.stringifyFields fs
end

/-- An MCP content block as delivered by the tool host
(`ContentBlock` from the MCP SDK): text, image, audio, a resource link to be
resolved, or an embedded resource. -/
inductive MCPContentBlock where
  | text (t : String) : MCPContentBlock
  | image (dta mimeType : String) : MCPContentBlock
  | audio (dta mimeType : String) : MCPContentBlock
  | resource_link (uri : String) : MCPContentBlock
  | resource (uri : String) (dta : Option String) (mimeType : Option String) :
      MCPContentBlock
deriving Repr, DecidableEq

/-- A fully resolved content block (`FinalContentBlock` of
`ContentBlockConverter`): no unresolved resource links remain. -/
inductive FinalContentBlock where
  | text (t : String) : FinalContentBlock
  | image (dta mimeType : String) : FinalContentBlock
  | audio (dta mimeType : String) : FinalContentBlock
deriving Repr, DecidableEq

/-- The `text` field of a final content block (`item.text` in the sources):
absent (`undefined`, modelled `none`) on non-text blocks. -/
def FinalContentBlock.textField : FinalContentBlock → Option String
  | .text t => some t
  | _ => none

/-- The check `item.type === 'text'` on a final content block. -/
def FinalContentBlock.isText : FinalContentBlock → Bool
  | .text _ => true
  | _ => false

/-- One entry of an MCP resource read result (`result.contents`). -/
structure ResourceEntry where
  uri : String
  text : Option String := none
  blob : Option String := none
deriving Repr, DecidableEq

/-- Result shape of `window.electron.mcp.readResource`. -/
structure ReadResourceResult where
  isError : Bool := false
  contents : List ResourceEntry := []
deriving Repr, DecidableEq

/-- A content part of a vendor request message
(`IChatRequestMessageContent`), covering the shapes the embedded services
construct and consume. -/
inductive CPart where
  /-- `{type:'text', text}` (the `text` field may be absent). -/
  | text (t : Option String) : CPart
  /-- Anthropic `{type:'image', source:{type:'base64', media_type, data}}`;
  both source fields may be absent. -/
  | imageB64 (media_type : Option String) (dta : Option String) : CPart
  /-- Anthropic `{type:'image', source:{type:'url', url}}`. -/
  | imageUrlSrc (url : String) : CPart
  /-- Anthropic `{type:'tool_use', id, name, input}`. -/
  | tool_use (id name : String) (input : Json) : CPart
  /-- Anthropic `{type:'tool_result', tool_use_id, content}` with string
  content. -/
  | tool_result (tool_use_id : String) (content : String) : CPart
deriving Repr

/-- JavaScript `String.prototype.startsWith` on the char-list model (the
built-in `String.startsWith` does not reduce inside the kernel). -/
def jsStartsWith (s p : String) : Bool :=
  p.data.isPrefixOf s.data

/-- Worker for `jsSplitChar`: split a char list at a separator char. -/
def jsSplitCharAux (sep : Char) : List Char → List Char → List String
  | [], acc => [String.mk acc.reverse]
  | c :: cs, acc =>
      if c = sep then String.mk acc.reverse :: jsSplitCharAux sep cs []
      else jsSplitCharAux sep cs (c :: acc)

/-- JavaScript `String.prototype.split` with a one-character separator, on
the char-list model. -/
def jsSplitChar (sep : Char) (s : String) : List String :=
  jsSplitCharAux sep s.data []

/-- Modelled from the spec: `ContentBlockConverter.convert(block,
resolveResource)` — the MCP Content Converter, whose source is not among the
provided files.  Text/image/audio blocks pass through; a `resource_link` is
resolved through the injected resolver and inlined as text (joining the
resolved entries' text contents), degrading to an empty text block when the
resolver yields nothing; an embedded `resource` is inlined from its own
data. -/
def ContentBlockConverter.convert (resolve : String → List ResourceEntry) :
    MCPContentBlock → FinalContentBlock
  | .text t => .text t
  | .image d m => .image d m
  | .audio d m => .audio d m
  | .resource_link uri =>
      .text (String.intercalate "\n" ((resolve uri).filterMap (·.text)))
  | .resource _ d _ => .text (d.getD "")

/-- Modelled from the spec: `ContentBlockConverter.contentBlockToLegacyMessageContent`
— maps a final content block to the minimal legacy message-content shape
vendors understand (text stays text, binary image data becomes a base64 image
part, audio degrades to empty text). -/
def ContentBlockConverter.contentBlockToLegacyMessageContent :
    FinalContentBlock → CPart
  | .text t => .text (some t)
  | .image d m => .imageB64 (some m) (some d)
  | .audio _ _ => .text (some "")

/-- A model-issued tool invocation (`ITool` from `IChatReader`): the
vendor-assigned id, the composite tool name, and the parsed arguments (absent
when the model sent none). -/
structure ITool where
  id : String
  name : String
  args : Option Json := none
deriving Repr

/-- A tool result as returned by the tool host: either a bare string, or an
object with an `isError` flag, an `error` payload and optional `content`
blocks (absent or non-array content is modelled through the `Option`). -/
inductive ToolResult where
  | str (s : String) : ToolResult
  | obj (isError : Bool) (error : Json)
      (content : Option (List MCPContentBlock)) : ToolResult
deriving Repr

/-- The injected external collaborators of the adapters: HTML/image splitting
and HTML stripping (from `utils/util`), remote-image fetching with base64
encoding (`getBase64` / inline `fetch` + `btoa`; `none` = the fetch failed),
and the MCP resource host (`window.electron.mcp.readResource`, taking the
server key and the uri). -/
structure SplitItem where
  type : String
  data : String
  dataType : Option String := none
  mimeType : Option String := none
deriving Repr, DecidableEq

/-- The record of injected external functions (see `SplitItem`). -/
structure Utils where
  splitByImg : String → List SplitItem
  stripHtmlTags : String → String
  fetchB64 : String → Option String
  readResource : String → String → ReadResourceResult

/-- The resource resolver closure both `makeToolMessages` implementations pass
to the converter: read the resource from the tool's server (the part of the
composite tool name before `--`), returning `[]` on a host-reported error. -/
def mcpResolve (u : Utils) (tool : ITool) (uri : String) :
    List ResourceEntry :=
  let r := u.readResource (((tool.name.splitOn "--").headD "")) uri
  if r.isError then [] else r.contents

/-- An OpenAI-style tool call record on an assistant message
(`{id, type:'function', function:{name, arguments}}`). -/
structure ToolCall where
  id : String
  type : String
  fname : String
  arguments : Option Json
deriving Repr

/-- A content part of an incoming message's content array, as the services
receive it from their `makeMessages` argument (OpenAI-shaped): a `type` tag
and the optional `text`, `image_url.url` and `images` properties the services
probe. -/
structure InItem where
  type : String
  text : Option String := none
  image_url : Option String := none
  images : List String := []
deriving Repr, DecidableEq

/-- The content of an incoming message: a plain string, an array of content
parts, or any other JavaScript value (`other`). -/
inductive InContent where
  | str (s : String) : InContent
  | arr (items : List InItem) : InContent
  | other (j : Json) : InContent
deriving Repr

/-- An incoming request message, as handed to `makeMessages`
(`IChatRequestMessage` on the consuming side). -/
structure InMsg where
  role : String
  content : InContent
  tool_call_id : Option String := none
  tool_calls : Option (List ToolCall) := none
  name : Option String := none
deriving Repr

/-- The JSON value an incoming content part denotes (for `JSON.stringify`). -/
def InItem.toJson (it : InItem) : Json :=
  .obj ([("type", Json.str it.type)]
    ++ (match it.text with
        | some t => [("text", Json.str t)]
        | none => [])
    ++ (match it.image_url with
        | some url => [("image_url", Json.obj [("url", Json.str url)])]
        | none => [])
    ++ (if it.images.isEmpty then []
        else [("images", Json.arr (it.images.map Json.str))]))

/-- The JSON value an incoming message content denotes (for
`JSON.stringify`). -/
def InContent.toJson : InContent → Json
  | .str s => .str s
  | .arr items => .arr (items.map InItem.toJson)
  | .other j => j

/-- Message content as the services emit it: a plain string, an array of
content parts, or an incoming content passed through unconverted (`raw`,
for the code paths that return the incoming message object as-is). -/
inductive OutContent where
  | str (s : String) : OutContent
  | parts (ps : List CPart) : OutContent
  | raw (c : InContent) : OutContent
deriving Repr

/-- A vendor request message as the embedded services construct it
(`IChatRequestMessage`).  `role` is optional because one code path of
`AnthropicChatService.makeMessages` constructs an object with no `role` at
all; the stray `typ`/`tool_use_id` fields model that same object's
`type`/`tool_use_id` properties. -/
structure RMsg where
  role : Option String := none
  content : Option OutContent := none
  name : Option String := none
  tool_call_id : Option String := none
  tool_calls : Option (List ToolCall) := none
  typ : Option String := none
  tool_use_id : Option String := none
  images : Option (List String) := none
deriving Repr

/-- View an incoming message unchanged as an emitted message (the identity
embedding used where the sources push the received object as-is). -/
def RMsg.ofInMsg (m : InMsg) : RMsg :=
  { role := some m.role, content := some (.raw m.content),
    tool_call_id := m.tool_call_id, tool_calls := m.tool_calls,
    name := m.name }

/-- One persisted role/content pair of a structured prompt
(`StructuredPrompt`). -/
structure StructuredPrompt where
  role : String
  content : InContent
deriving Repr

/-- One persisted chat turn as supplied by the chat context
(`IChatMessage`): the user prompt, the assistant reply, and the optional
JSON-serialized structured prompts. -/
structure IChatMessage where
  prompt : String
  reply : String
  structuredPrompts : Option String := none
deriving Repr

namespace AnthropicService

/-- Embedding of `AnthropicChatService.makeToolMessages(tool, toolResult, content?)`:
encodes a tool call and its result as an Anthropic `assistant` `tool_use`
message followed by a `user` message of `tool_result` parts; an all-text
converted result is joined into the `tool_result`'s string content, any other
converted result is replaced by a placeholder `tool_result` with the legacy
blocks appended to the same `user` content array; a non-empty `content`
argument is prepended to the assistant message as a text block. -/
def makeToolMessages (u : Utils) (tool : ITool) (toolResult : ToolResult)
    (content : Option String := none) : List RMsg :=
  let parts₀ : List CPart :=
    match toolResult with
    | .str s => [.tool_result tool.id s]
    | .obj true err _ => [.tool_result tool.id (Json.stringify err)]
    | .obj false _ contentOpt =>
        match contentOpt with
        | none => []
        | some contentParts =>
            let convertedBlocks :=
              contentParts.map
                (ContentBlockConverter.convert (mcpResolve u tool))
            if convertedBlocks.all (·.isText) then
              [.tool_result tool.id
                (String.intercalate "\n\n\n"
                  (convertedBlocks.map (fun item => (item.textField).getD "")))]
            else
              .tool_result tool.id
                  "NOTE: This tool output is only a placeholder. See the following parts of this message for the actual tool result. Please use that for processing."
                :: convertedBlocks.map
                    ContentBlockConverter.contentBlockToLegacyMessageContent
  let assistantParts : List CPart :=
    [.tool_use tool.id tool.name (tool.args.getD (Json.obj []))]
  let assistantParts :=
    match content with
    | some c => if c ≠ "" then .text (some c) :: assistantParts
                else assistantParts
    | none => assistantParts
  [{ role := some "assistant", content := some (.parts assistantParts) },
   { role := some "user", content := some (.parts parts₀) }]

/-- One item of `splitByImg` output under
`AnthropicChatService.convertPromptContent`: a remote image is fetched and
base64-encoded (a failed fetch rejects, `none`), an inline data-URL image is
split after its `data:...;base64,` prefix, text passes through, and any other
item type throws (`none`). -/
def convertItem (u : Utils) (item : SplitItem) : Option CPart :=
  if item.type = "image" then
    if item.dataType = some "URL" then
      (u.fetchB64 item.data).map (fun dta => .imageB64 item.mimeType (some dta))
    else
      some (.imageB64 item.mimeType ((jsSplitChar ',' item.data).get? 1))
  else if item.type = "text" then
    some (.text (some item.data))
  else
    none

/-- Embedding of `AnthropicChatService.convertPromptContent(content)`: on a vision-capable
model, split the content into text and image items and convert each (any item
failure rejects the whole conversion); otherwise strip HTML tags and return
the plain string. -/
def convertPromptContent (u : Utils) (vision : Bool) (content : String) :
    Option OutContent :=
  if vision then
    ((u.splitByImg content).mapM (convertItem u)).map OutContent.parts
  else
    some (.str (u.stripHtmlTags content))

/-- One item of an incoming message's content array under
`AnthropicChatService.makeMessages`, with the warning (if any) it logs:
text and `image_url` items are translated to Anthropic blocks; audio and any
unknown item type degrade to an empty text block with a logged warning. -/
def convertArrayItem (item : InItem) : CPart × Option String :=
  if item.type = "text" then
    (.text item.text, none)
  else if item.type = "image_url" then
    (.imageUrlSrc (item.image_url.getD ""), none)
  else if item.type = "audio" then
    (.text (some ""),
     some "Warning: Audio content type not supported, converting to empty text")
  else
    (.text (some ""),
     some ("Warning: Unknown content type '" ++ item.type ++
       "', converting to empty text"))

/-- One incoming message under `AnthropicChatService.makeMessages`: a `tool`
message becomes an object with a JSON-stringified content, a `tool_result`
type tag and the `tool_use_id` — and no role; an assistant message carrying
`tool_calls` passes through unchanged; string content goes through
`convertPromptContent`; array content is converted item-wise; any other
content becomes an empty string. -/
def processMessage (u : Utils) (vision : Bool) (m : InMsg) : Option RMsg :=
  if m.role = "tool" then
    some { content := some (.str (Json.stringify m.content.toJson)),
           typ := some "tool_result",
           tool_use_id := m.tool_call_id }
  else if m.role = "assistant" ∧ m.tool_calls.isSome then
    some (RMsg.ofInMsg m)
  else
    match m.content with
    | .str s =>
        (convertPromptContent u vision s).map
          (fun c => { role := some m.role, content := some c })
    | .arr items =>
        some { role := some m.role,
               content := some (.parts
                 (items.map (fun it => (convertArrayItem it).1))) }
    | .other _ =>
        some { role := some m.role, content := some (.str "") }

/-- One persisted context turn under `AnthropicChatService.makeMessages`'s
history reduction: structured prompts (when present and non-empty) are parsed
— a parse failure throws (`none`) — and emitted as role/content pairs,
otherwise the prompt is emitted as a user message; the assistant reply
follows in either case. -/
def ctxMessageToMsgs (parseSP : String → Option (List StructuredPrompt))
    (msg : IChatMessage) : Option (List RMsg) :=
  let structured := msg.structuredPrompts.getD ""
  if structured ≠ "" then
    match parseSP structured with
    | none => none
    | some prompts =>
        some ((prompts.map (fun p =>
            ({ role := some p.role, content := some (.raw p.content) } : RMsg)))
          ++ [{ role := some "assistant",
                content := some (.raw (.str msg.reply)) }])
  else
    some [{ role := some "user", content := some (.raw (.str msg.prompt)) },
          { role := some "assistant",
            content := some (.raw (.str msg.reply)) }]

/-- Embedding of `AnthropicChatService.makeMessages(messages, msgId)`: the reduced context
history followed by the processed incoming messages. -/
def makeMessages (u : Utils)
    (parseSP : String → Option (List StructuredPrompt))
    (vision : Bool) (ctxMsgs : List IChatMessage)
    (messages : List InMsg) : Option (List RMsg) := do
  let ctxParts ← ctxMsgs.mapM (ctxMessageToMsgs parseSP)
  let processed ← messages.mapM (processMessage u vision)
  return ctxParts.flatten ++ processed

end AnthropicService

/-- Modelled from the spec: `removeAdditionalProperties` (from `utils/util`,
not among the provided files) — strips the schema-validation keyword
`additionalProperties`, which the vendor rejects, from a JSON schema,
recursively. -/
def removeAdditionalProperties : Json → Json :=
  removeAP
where
  /-- Recursive worker on a JSON value. -/
  removeAP : Json → Json
    | .obj fs => .obj (removeAPFields fs)
    | .arr xs => .arr (removeAPList xs)
    | j => j
  /-- Recursive worker on a JSON array's elements. -/
  removeAPList : List Json → List Json
    | [] => []
    | x :: xs => removeAP x :: removeAPList xs
  /-- Recursive worker on a JSON object's fields. -/
  removeAPFields : List (String × Json) → List (String × Json)
    | [] => []
    | (k, v) :: fs =>
        if k = "additionalProperties" then removeAPFields fs
        else (k, removeAP v) :: removeAPFields fs

/-- An MCP tool schema as returned by the tool host's `listTools`
(`IMCPTool`): name, description and input schema. -/
structure MCPToolSchema where
  name : String
  description : String
  schemaType : String
  properties : Option Json := none
  required : Option (List String) := none
deriving Repr

/-- An Anthropic tool schema's `input_schema` object. -/
structure AnthropicInputSchema where
  type : String
  properties : Json
  required : List String
deriving Repr

/-- An Anthropic tool declaration (`IAnthropicTool`). -/
structure AnthropicTool where
  name : String
  description : String
  input_schema : AnthropicInputSchema
deriving Repr

/-- Anthropic `tool_choice` object. -/
structure ChatToolChoice where
  type : String
  disable_parallel_tool_use : Bool
deriving Repr, DecidableEq

/-- The assembled Anthropic request payload (`IChatRequestPayload` as filled
in by `AnthropicChatService.makePayload`). -/
structure APayload where
  model : String
  messages : List RMsg
  temperature : Rat
  stream : Bool
  system : Option String := none
  max_tokens : Option Int := none
  tools : Option (List AnthropicTool) := none
  tool_choice : Option ChatToolChoice := none
deriving Repr

/-- The read-only chat context (`IChatContext`) as the Anthropic adapter
consults it in `makePayload`. -/
structure ChatCtx where
  modelName : String
  vision : Bool
  temperature : Rat
  systemMessage : Option String := none
  maxTokens : Option Int := none
  toolsEnabled : Bool
  ctxMsgs : List IChatMessage := []
deriving Repr

/-- Embedding of `isBlank` from `utils/validators`: absent or whitespace-only. -/
def isBlank : Option String → Bool
  | none => true
  | some s => s.trim = ""

namespace AnthropicService

/-- Embedding of `AnthropicChatService.makeTool(tool)`: translate an MCP tool schema into
Anthropic's `input_schema` dialect, stripping rejected schema keywords and
defaulting absent properties and required lists. -/
def makeTool (t : MCPToolSchema) : AnthropicTool :=
  { name := t.name, description := t.description,
    input_schema :=
      { type := t.schemaType,
        properties :=
          match t.properties with
          | some p => removeAdditionalProperties p
          | none => Json.obj [],
        required := t.required.getD [] } }

/-- Embedding of `AnthropicChatService.makePayload(messages, msgId)`: model, converted
messages, temperature and `stream: true`; the system message when not blank;
`max_tokens` when configured; and — only when tool use is enabled, the tool
host returned a listing, and unused tools remain — the translated tool list
together with `tool_choice: {type:'auto', disable_parallel_tool_use:true}`. -/
def makePayload (u : Utils)
    (parseSP : String → Option (List StructuredPrompt))
    (c : ChatCtx) (listToolsResult : Option (List MCPToolSchema))
    (usedToolNames : List String) (messages : List InMsg) :
    Option APayload := do
  let ms ← makeMessages u parseSP c.vision c.ctxMsgs messages
  let payload : APayload :=
    { model := c.modelName, messages := ms,
      temperature := c.temperature, stream := true }
  let payload :=
    if ¬ isBlank c.systemMessage then
      { payload with system := c.systemMessage }
    else payload
  let payload :=
    match c.maxTokens with
    | some n => if n ≠ 0 then { payload with max_tokens := some n } else payload
    | none => payload
  let payload :=
    if c.toolsEnabled then
      match listToolsResult with
      | some tools =>
          let unusedTools :=
            (tools.filter (fun t => ¬ usedToolNames.contains t.name)).map
              makeTool
          if unusedTools.length > 0 then
            { payload with
              tools := some unusedTools,
              tool_choice := some
                { type := "auto", disable_parallel_tool_use := true } }
          else payload
      | none => payload
    else payload
  return payload

end AnthropicService

namespace OllamaService

/-- The placeholder note `OllamaChatService.makeToolMessages` puts into the
tool message when the converted tool result is not all text. -/
def placeholderNote : Json :=
  .obj [("message",
    .str "NOTE: This tool output is only a placeholder. The actual result from the tool is included in the next message with role \"user\". Please use that for processing.")]

/-- Embedding of `OllamaChatService.makeToolMessages(tool, toolResult)`: encodes a tool
call and its result as an OpenAI-style `assistant` message carrying
`tool_calls` plus a `tool` message carrying the result content; when the
converted result is not all text, the tool message only holds a placeholder
note and a third, supplemental `user` message carrying the converted legacy
blocks is appended. -/
def makeToolMessages (u : Utils) (tool : ITool) (toolResult : ToolResult) :
    List RMsg :=
  let state : List CPart × Option RMsg :=
    match toolResult with
    | .str s => ([.text (some s)], none)
    | .obj true err _ => ([.text (some (Json.stringify err))], none)
    | .obj false _ contentOpt =>
        match contentOpt with
        | none => ([], none)
        | some contentParts =>
            let convertedBlocks :=
              contentParts.map
                (ContentBlockConverter.convert (mcpResolve u tool))
            if convertedBlocks.all (·.isText) then
              (convertedBlocks.map
                 ContentBlockConverter.contentBlockToLegacyMessageContent,
               none)
            else
              ([.text (some (Json.stringify placeholderNote))],
               some
                 { role := some "user",
                   content := some (.parts (convertedBlocks.map
                     ContentBlockConverter.contentBlockToLegacyMessageContent)) })
  let toolMessageContent := state.1
  let supplement := state.2
  let result : List RMsg :=
    [{ role := some "assistant",
       tool_calls := some
         [{ id := tool.id, type := "function",
            fname := tool.name, arguments := tool.args }] },
     { role := some "tool", name := some tool.name,
       content := some (.parts toolMessageContent),
       tool_call_id := some tool.id }]
  match supplement with
  | some s => result ++ [s]
  | none => result

/-- The `{content, images?}` object `OllamaChatService.convertPromptContent`
returns. -/
structure OllamaPrompt where
  content : String
  images : Option (List String) := none
deriving Repr, DecidableEq

/-- Embedding of `OllamaChatService.convertPromptContent(content)`: on a vision-capable
model, join the text items, strip local data-URL images down to their bare
base64 payload, and fetch remote images (a failed fetch yields `null` and is
filtered out); the `images` field is set from local plus successfully fetched
remote images, but only when at least one remote fetch succeeded — or, with
no remote images at all, when local images exist.  Without vision the content
is the HTML-stripped text. -/
def convertPromptContent (u : Utils) (vision : Bool) (content : String) :
    OllamaPrompt :=
  if vision then
    let items := u.splitByImg content
    let textItems := items.filter (fun it => it.type = "text")
    let textContent := String.intercalate "\n" (textItems.map (·.data))
    let imageItems := items.filter (fun it => it.type = "image")
    let localImages :=
      (imageItems.filter (fun it => it.dataType = some "base64")).map
        (fun i =>
          let base64Data := jsSplitChar ',' i.data
          if base64Data.length < 2 then i.data
          else (base64Data.get? 1).getD "")
    let remoteImageItems := items.filter (fun it => it.dataType = some "URL")
    if remoteImageItems.length > 0 then
      let base64Images := remoteImageItems.map (fun it => u.fetchB64 it.data)
      let validBase64Images := base64Images.filterMap id
      if validBase64Images.length > 0 then
        { content := textContent,
          images := some (localImages ++ validBase64Images) }
      else
        { content := textContent }
    else if localImages.length > 0 then
      { content := textContent, images := some localImages }
    else
      { content := textContent }
  else
    { content := u.stripHtmlTags content }

/-- The image references one incoming content item contributes under
`OllamaChatService.makeMessages`: the item's non-empty `image_url.url`, or
else its `images` array. -/
def collectItemImages (it : InItem) : List String :=
  match it.image_url with
  | some url => if url ≠ "" then [url] else it.images
  | none => it.images

/-- One image reference under `OllamaChatService.makeMessages`'s vision
branch: a data URL is stripped to its bare base64 payload, a remote
`http:`/`https:`/`blob:` URL is fetched and base64-encoded (empty on
failure), anything else becomes empty — empty strings are filtered out
afterwards. -/
def encodeImage (u : Utils) (img : String) : String :=
  if jsStartsWith img "data:" then
    ((jsSplitChar ',' img).get? 1).getD ""
  else if jsStartsWith img "http:" ∨ jsStartsWith img "https:" ∨
      jsStartsWith img "blob:" then
    (u.fetchB64 img).getD ""
  else
    ""

/-- One message under `OllamaChatService.makeMessages`: string content passes
through unchanged; array content is flattened into a single string of its
text parts with the images collected into a sibling `images` array (encoded
and filtered when vision is enabled, absent otherwise); any other content is
dropped. -/
def processMessage (u : Utils) (vision : Bool) (m : InMsg) : Option RMsg :=
  match m.content with
  | .str _ => some (RMsg.ofInMsg m)
  | .arr items =>
      let texts :=
        (items.filter (fun it => it.type = "text")).map (fun it => it.text)
      let images := items.flatMap collectItemImages
      let images :=
        if vision then
          (images.map (encodeImage u)).filter (fun s => s ≠ "")
        else images
      some { RMsg.ofInMsg m with
             content := some (.str (String.intercalate "\n\n\n"
               (texts.map (·.getD "")))),
             images := if vision then some images else none }
  | .other _ => none

/-- Embedding of `OllamaChatService.makeMessages(messages, msgId)` past the superclass
call: post-process each message of the superclass result. -/
def makeMessages (u : Utils) (vision : Bool) (superResult : List InMsg) :
    List RMsg :=
  superResult.filterMap (processMessage u vision)

end OllamaService

namespace DeepSeekService

/-- One message under `DeepSeekChatService.makeMessages`: string content
passes through; array content is flattened by joining its parts' `text`
fields (empty for parts without text) with newlines; anything else maps to
`null`. -/
def formatMessage (m : InMsg) : Option InMsg :=
  match m.content with
  | .str _ => some m
  | .arr parts =>
      some { m with content := .str (String.intercalate "\n"
        (parts.map (fun part => part.text.getD ""))) }
  | .other _ => none

/-- Embedding of `DeepSeekChatService.makeMessages(messages, msgId)` past the superclass
call: `.map(formatMessage).filter(Boolean)` on the superclass result. -/
def makeMessages (superResult : List InMsg) : List InMsg :=
  ((superResult.map formatMessage).filter (·.isSome)).filterMap id

end DeepSeekService

/-- A trivial record of injected collaborators, for concrete evaluations:
splitting yields the content as one text item, HTML stripping is the
identity, every remote fetch fails, and the resource host is empty. -/
def trivialUtils : Utils :=
  { splitByImg := fun s => [{ type := "text", data := s }],
    stripHtmlTags := fun s => s,
    fetchB64 := fun _ => none,
    readResource := fun _ _ => { isError := false, contents := [] } }

/-- Injected collaborators for the image-fetch-failure scenario: the content
splits into one text item and two remote images, of which only the second
fetch succeeds. -/
def fetchFailUtils : Utils :=
  { splitByImg := fun _ =>
      [{ type := "text", data := "hello" },
       { type := "image", data := "http://a.example/x.png",
         dataType := some "URL", mimeType := some "image/png" },
       { type := "image", data := "http://b.example/y.png",
         dataType := some "URL", mimeType := some "image/png" }],
    stripHtmlTags := fun s => s,
    fetchB64 := fun url =>
      if url = "http://b.example/y.png" then some "QkJC" else none,
    readResource := fun _ _ => { isError := false, contents := [] } }

/-- The concrete tool used by the witnesses. -/
def wTool : ITool := { id := "call_1", name := "srv--lookup", args := none }

/-- A concrete chat context with tool use enabled. -/
def wCtx : ChatCtx :=
  { modelName := "claude-3-5", vision := false, temperature := 0,
    toolsEnabled := true }

/-- A concrete MCP tool schema. -/
def wToolSchema : MCPToolSchema :=
  { name := "srv--lookup", description := "Look things up",
    schemaType := "object" }

/-- The payload `makePayload` assembles from `wCtx` with `wToolSchema`
available and unused. -/
def wPayload : APayload :=
  { model := "claude-3-5", messages := [], temperature := 0, stream := true,
    tools := some [AnthropicService.makeTool wToolSchema],
    tool_choice := some { type := "auto", disable_parallel_tool_use := true } }

/-- Injected collaborators whose fetch succeeds on one specific remote
image. -/
def w8Utils : Utils :=
  { splitByImg := fun s => [{ type := "text", data := s }],
    stripHtmlTags := fun s => s,
    fetchB64 := fun url =>
      if url = "http://img.example/a.png" then some "Wlpa" else none,
    readResource := fun _ _ => { isError := false, contents := [] } }

/-- The concrete content-part array used by the Ollama flattening witness. -/
def w8Items : List InItem :=
  [{ type := "text", text := some "look" },
   { type := "image_url", image_url := some "data:image/png;base64,QUJD" },
   { type := "file", images := ["http://img.example/a.png"] }]

/-- C2: For an Anthropic tool result with `isError` false whose content is a
single text block, and with no preceding text given, `makeToolMessages`
returns exactly two messages: an assistant message whose content is one
`tool_use` block carrying the tool's id, name and args, followed by a user
message whose content is one `tool_result` block with the same `tool_use_id`
and the text as a plain string — and no supplemental message. -/
theorem anthropic_tool_result_single_text_block (u : Utils) (tool : ITool)
    (err : Json) (t : String) :
    AnthropicService.makeToolMessages u tool
        (.obj false err (some [.text t])) none =
      [{ role := some "assistant",
         content := some (.parts
           [.tool_use tool.id tool.name (tool.args.getD (Json.obj []))]) },
       { role := some "user",
         content := some (.parts [.tool_result tool.id t]) }] := by
  simp [AnthropicService.makeToolMessages, ContentBlockConverter.convert,
    FinalContentBlock.isText, FinalContentBlock.textField, String.intercalate,
    String.intercalate.go]

/-- C4: For every tool result in which the tool host reported `isError` true,
`makeToolMessages` converts it into a normal tool-result message whose content
is the JSON-serialized error payload — Anthropic as a `tool_result` block
whose content is `JSON.stringify` of the error, Ollama as a text part with the
same serialization — rather than raising or surfacing a fatal error. -/
theorem tool_error_becomes_tool_result_message (u : Utils) (tool : ITool)
    (err : Json) (c c2 : Option (List MCPContentBlock)) :
    AnthropicService.makeToolMessages u tool (.obj true err c) none =
      [{ role := some "assistant",
         content := some (.parts
           [.tool_use tool.id tool.name (tool.args.getD (Json.obj []))]) },
       { role := some "user",
         content := some (.parts
           [.tool_result tool.id (Json.stringify err)]) }]
    ∧
    OllamaService.makeToolMessages u tool (.obj true err c2) =
      [{ role := some "assistant",
         tool_calls := some
           [{ id := tool.id, type := "function",
              fname := tool.name, arguments := tool.args }] },
       { role := some "tool", name := some tool.name,
         content := some (.parts [.text (some (Json.stringify err))]),
         tool_call_id := some tool.id }] := by
  constructor
  · simp [AnthropicService.makeToolMessages]
  · simp [OllamaService.makeToolMessages]

/-- C10: In the Anthropic adapter's `makeToolMessages`, when the optional
preceding text argument is provided and non-empty, it is prepended as a text
block at the front of the assistant message's content array, before the
`tool_use` block; the user tool-result message is the same as when no
preceding text is given. -/
theorem anthropic_preceding_text_prepended (u : Utils) (tool : ITool)
    (tr : ToolResult) (s : String) (h : s ≠ "") :
    AnthropicService.makeToolMessages u tool tr (some s) =
      { role := some "assistant",
        content := some (.parts (.text (some s) ::
          [.tool_use tool.id tool.name (tool.args.getD (Json.obj []))])) }
        :: (AnthropicService.makeToolMessages u tool tr none).tail := by
  simp [AnthropicService.makeToolMessages, h]

/-- Witness for `anthropic_preceding_text_prepended` at `s := "All done."`,
`tr := .str "ok"`. -/
theorem anthropic_preceding_text_prepended_witness :
    ("All done." : String) ≠ "" ∧
    AnthropicService.makeToolMessages trivialUtils wTool (.str "ok")
        (some "All done.") =
      { role := some "assistant",
        content := some (.parts (.text (some "All done.") ::
          [.tool_use wTool.id wTool.name (wTool.args.getD (Json.obj []))])) }
        :: (AnthropicService.makeToolMessages trivialUtils wTool
              (.str "ok") none).tail :=
  ⟨by decide,
   anthropic_preceding_text_prepended trivialUtils wTool (.str "ok")
     "All done." (by decide)⟩

/-- C1: For a tool result whose converted content blocks are not all of type
text (e.g. it contains an image block), the Anthropic adapter's
`makeToolMessages` returns two messages where the user message's content array
holds a placeholder `tool_result` block with a redirect note followed by the
rich content blocks appended in that same array (not a separate message),
while the Ollama adapter's `makeToolMessages` instead appends a genuine third
supplemental user message carrying the rich content after the placeholder
tool message. -/
theorem anthropic_inline_vs_ollama_supplemental_rich_result
    (u : Utils) (tool : ITool) (err : Json) (blocks : List MCPContentBlock)
    (h : (blocks.map (ContentBlockConverter.convert (mcpResolve u tool))).all
        (·.isText) = false) :
    AnthropicService.makeToolMessages u tool
        (.obj false err (some blocks)) none =
      [{ role := some "assistant",
         content := some (.parts
           [.tool_use tool.id tool.name (tool.args.getD (Json.obj []))]) },
       { role := some "user",
         content := some (.parts
           (.tool_result tool.id
              "NOTE: This tool output is only a placeholder. See the following parts of this message for the actual tool result. Please use that for processing."
             :: (blocks.map
                  (ContentBlockConverter.convert (mcpResolve u tool))).map
                  ContentBlockConverter.contentBlockToLegacyMessageContent)) }]
    ∧
    OllamaService.makeToolMessages u tool (.obj false err (some blocks)) =
      [{ role := some "assistant",
         tool_calls := some
           [{ id := tool.id, type := "function",
              fname := tool.name, arguments := tool.args }] },
       { role := some "tool", name := some tool.name,
         content := some (.parts
           [.text (some (Json.stringify OllamaService.placeholderNote))]),
         tool_call_id := some tool.id },
       { role := some "user",
         content := some (.parts
           ((blocks.map
              (ContentBlockConverter.convert (mcpResolve u tool))).map
              ContentBlockConverter.contentBlockToLegacyMessageContent)) }] := by
  constructor
  · simp [AnthropicService.makeToolMessages, h]
  · simp [OllamaService.makeToolMessages, h]

/-- Witness for `anthropic_inline_vs_ollama_supplemental_rich_result` on a
tool result holding one image block. -/
theorem anthropic_inline_vs_ollama_supplemental_rich_result_witness :
    (([MCPContentBlock.image "QUJD" "image/png"]).map
        (ContentBlockConverter.convert (mcpResolve trivialUtils wTool))).all
        (·.isText) = false ∧
    (AnthropicService.makeToolMessages trivialUtils wTool
        (.obj false .null (some [.image "QUJD" "image/png"])) none =
      [{ role := some "assistant",
         content := some (.parts
           [.tool_use wTool.id wTool.name (wTool.args.getD (Json.obj []))]) },
       { role := some "user",
         content := some (.parts
           (.tool_result wTool.id
              "NOTE: This tool output is only a placeholder. See the following parts of this message for the actual tool result. Please use that for processing."
             :: (([MCPContentBlock.image "QUJD" "image/png"]).map
                  (ContentBlockConverter.convert (mcpResolve trivialUtils wTool))).map
                  ContentBlockConverter.contentBlockToLegacyMessageContent)) }]
    ∧
    OllamaService.makeToolMessages trivialUtils wTool
        (.obj false .null (some [.image "QUJD" "image/png"])) =
      [{ role := some "assistant",
         tool_calls := some
           [{ id := wTool.id, type := "function",
              fname := wTool.name, arguments := wTool.args }] },
       { role := some "tool", name := some wTool.name,
         content := some (.parts
           [.text (some (Json.stringify OllamaService.placeholderNote))]),
         tool_call_id := some wTool.id },
       { role := some "user",
         content := some (.parts
           ((([MCPContentBlock.image "QUJD" "image/png"]).map
              (ContentBlockConverter.convert (mcpResolve trivialUtils wTool))).map
              ContentBlockConverter.contentBlockToLegacyMessageContent)) }]) :=
  ⟨by decide,
   anthropic_inline_vs_ollama_supplemental_rich_result trivialUtils wTool
     .null [.image "QUJD" "image/png"] (by decide)⟩

/-- C9: For the DeepSeek adapter, every message returned by `makeMessages`
has string content: a message whose content is an array is flattened by
joining its parts' `text` fields (empty string for parts without text) with
newlines, and a message whose content is neither a string nor an array is
dropped from the output entirely. -/
theorem deepseek_messages_flattened (msgs : List InMsg) :
    DeepSeekService.makeMessages msgs =
      msgs.filterMap (fun m =>
        match m.content with
        | .str _ => some m
        | .arr parts =>
            some { m with content := .str (String.intercalate "\n"
              (parts.map (fun part => part.text.getD ""))) }
        | .other _ => none) ∧
    (DeepSeekService.makeMessages msgs).all
      (fun m => match m.content with | .str _ => true | _ => false) = true := by
  have hmain : DeepSeekService.makeMessages msgs =
      msgs.filterMap DeepSeekService.formatMessage := by
    induction msgs with
    | nil => rfl
    | cons m ms ih =>
        cases hc : m.content <;>
          simp_all [DeepSeekService.makeMessages, DeepSeekService.formatMessage]
  constructor
  · rw [hmain]
    rfl
  · rw [hmain]
    simp only [List.all_eq_true]
    intro m hm
    rcases List.mem_filterMap.mp hm with ⟨m0, _, hf⟩
    cases hc : m0.content <;>
      simp [DeepSeekService.formatMessage, hc] at hf <;>
      subst hf <;> simp [hc]

/-- C6: For every message content part whose type the Anthropic adapter
cannot represent (audio, or any unknown type), message conversion degrades
that one content part to an empty text block and logs a warning, instead of
aborting the conversion or dropping the surrounding message: the converted
part is an empty text block with a warning attached, and the surrounding
message is still emitted with one converted part per incoming part. -/
theorem anthropic_unsupported_part_degrades (u : Utils) (vision : Bool)
    (m : InMsg) (items : List InItem) (item : InItem)
    (hm : m.content = .arr items) (hit : item ∈ items)
    (hrole : m.role ≠ "tool")
    (hcalls : ¬(m.role = "assistant" ∧ m.tool_calls.isSome = true))
    (h : item.type = "audio" ∨ (item.type ≠ "text" ∧ item.type ≠ "image_url")) :
    (AnthropicService.convertArrayItem item).1 = .text (some "") ∧
    (AnthropicService.convertArrayItem item).2.isSome = true ∧
    AnthropicService.processMessage u vision m =
      some { role := some m.role,
             content := some (.parts (items.map
               (fun it => (AnthropicService.convertArrayItem it).1))) } := by
  refine ⟨?_, ?_, ?_⟩
  · rcases h with h | ⟨h1, h2⟩ <;>
      simp [AnthropicService.convertArrayItem, *] <;> split <;> rfl
  · rcases h with h | ⟨h1, h2⟩ <;>
      simp [AnthropicService.convertArrayItem, *] <;> split <;> rfl
  · simp only [AnthropicService.processMessage, hm]
    rw [if_neg hrole, if_neg (by exact_mod_cast hcalls)]

/-- Witness for `anthropic_unsupported_part_degrades` on a user message whose
content array holds a text part and an audio part. -/
theorem anthropic_unsupported_part_degrades_witness :
    (InMsg.mk "user"
        (.arr [{ type := "text", text := some "listen:" }, { type := "audio" }])
        none none none).content =
      .arr [{ type := "text", text := some "listen:" }, { type := "audio" }] ∧
    ({ type := "audio" } : InItem) ∈
      [({ type := "text", text := some "listen:" } : InItem), { type := "audio" }] ∧
    (AnthropicService.convertArrayItem { type := "audio" }).1 =
      .text (some "") ∧
    (AnthropicService.convertArrayItem { type := "audio" }).2.isSome = true ∧
    AnthropicService.processMessage trivialUtils true
        (InMsg.mk "user"
          (.arr [{ type := "text", text := some "listen:" }, { type := "audio" }])
          none none none) =
      some { role := some "user",
             content := some (.parts
               ([{ type := "text", text := some "listen:" }, { type := "audio" }].map
                 (fun it => (AnthropicService.convertArrayItem it).1))) } := by
  refine ⟨rfl, by decide, ?_⟩
  exact anthropic_unsupported_part_degrades trivialUtils true _ _ _
    rfl (by decide) (by decide) (by decide) (by decide)

/-- C7 (evaluation at the failing input): the Anthropic adapter's
`makeMessages` converts an incoming message with role `tool` into an object
that carries a `tool_result` type tag, the JSON-stringified content and the
`tool_use_id` — but no `role` field at all, rather than a `user` message
wrapping a `tool_result` block. -/
theorem anthropic_tool_role_message_emitted_roleless :
    AnthropicService.processMessage trivialUtils true
        { role := "tool", content := .str "42", tool_call_id := some "call_9" } =
      some { role := none, content := some (.str "\"42\""),
             typ := some "tool_result", tool_use_id := some "call_9" } := by
  rfl

/-- C3: For every chat request, `makePayload` includes a `tools` list in the
payload only when tool use is enabled and at least one tool returned by the
tool host is not already in the used-tool-names set; whenever tools are
included, `tool_choice` is set to exactly
`{type:'auto', disable_parallel_tool_use:true}`, and when no unused tools
remain the payload contains neither a `tools` key nor a `tool_choice` key. -/
theorem anthropic_payload_tools_and_tool_choice (u : Utils)
    (parseSP : String → Option (List StructuredPrompt)) (c : ChatCtx)
    (tools : List MCPToolSchema) (used : List String)
    (messages : List InMsg) (p : APayload)
    (hp : AnthropicService.makePayload u parseSP c (some tools) used messages
      = some p) :
    (p.tools.isSome = true ↔
      (c.toolsEnabled = true ∧ ∃ t ∈ tools, t.name ∉ used)) ∧
    (p.tools.isSome = true →
      p.tool_choice = some { type := "auto", disable_parallel_tool_use := true }) ∧
    (p.tools = none → p.tool_choice = none) := by
  rcases hms : AnthropicService.makeMessages u parseSP c.vision c.ctxMsgs
      messages with _ | ms
  · simp [AnthropicService.makePayload, hms] at hp
  · simp only [AnthropicService.makePayload, hms, Option.bind_eq_bind,
      Option.some_bind, Option.pure_def, Option.some.injEq] at hp
    have hex : 0 < ((tools.filter
          (fun t => ¬ used.contains t.name)).map
          AnthropicService.makeTool).length ↔
        ∃ t ∈ tools, t.name ∉ used := by
      simp [List.length_pos, List.filter_eq_nil_iff, List.elem_iff]
    subst hp
    by_cases ht : c.toolsEnabled
    all_goals by_cases hx : ∃ t ∈ tools, t.name ∉ used
    all_goals
      simp only [ht, hx, iff_true, iff_false, if_true, if_false,
        Bool.not_eq_true] at hex ⊢
    all_goals (repeat' split) <;>
      simp_all [List.length_pos, List.filter_eq_nil_iff]

/-- Witness for `anthropic_payload_tools_and_tool_choice` on a context with
tool use enabled, one available unused tool and an empty message list. -/
theorem anthropic_payload_tools_and_tool_choice_witness :
    AnthropicService.makePayload trivialUtils (fun _ => none) wCtx
        (some [wToolSchema]) [] [] = some wPayload ∧
    ((wPayload.tools.isSome = true ↔
      (wCtx.toolsEnabled = true ∧
        ∃ t ∈ [wToolSchema], t.name ∉ ([] : List String))) ∧
     (wPayload.tools.isSome = true →
      wPayload.tool_choice =
        some { type := "auto", disable_parallel_tool_use := true }) ∧
     (wPayload.tools = none → wPayload.tool_choice = none)) :=
  ⟨rfl,
   anthropic_payload_tools_and_tool_choice trivialUtils (fun _ => none) wCtx
     [wToolSchema] [] [] wPayload rfl⟩

/-- C8: For the Ollama adapter with vision enabled, every message whose
content is an array is emitted by `makeMessages` with its text parts joined
into a single string content field and its images placed in a sibling
`images` array of bare base64 strings (any `data:...;base64,` prefix
stripped, remote URLs fetched and encoded), never as inline content parts;
with vision disabled the `images` field is absent.  The hypothesis that every
collected image encodes to a non-empty string expresses that every image is a
well-formed data URL or a successfully fetched remote URL. -/
theorem ollama_array_content_flattened (u : Utils) (vision : Bool)
    (m : InMsg) (items : List InItem)
    (hm : m.content = .arr items)
    (hok : ∀ img ∈ items.flatMap OllamaService.collectItemImages,
        OllamaService.encodeImage u img ≠ "") :
    OllamaService.processMessage u vision m =
      some { RMsg.ofInMsg m with
             content := some (.str (String.intercalate "\n\n\n"
               (((items.filter (fun it => it.type = "text")).map
                 (fun it => it.text)).map (·.getD "")))),
             images := if vision = true
               then some ((items.flatMap OllamaService.collectItemImages).map
                 (OllamaService.encodeImage u))
               else none } := by
  simp only [OllamaService.processMessage, hm]
  by_cases hv : vision = true
  · have hfilter : ((items.flatMap OllamaService.collectItemImages).map
        (OllamaService.encodeImage u)).filter (fun s => s ≠ "") =
        (items.flatMap OllamaService.collectItemImages).map
          (OllamaService.encodeImage u) := by
      rw [List.filter_eq_self]
      intro b hb
      rcases List.mem_map.mp hb with ⟨a, ha, rfl⟩
      simpa using hok a ha
    simp only [hv, if_true, hfilter, Option.some.injEq]
  · simp [hv]

/-- Witness for `ollama_array_content_flattened`: a user message holding one
text part, one data-URL image and one remote image that fetches
successfully. -/
theorem ollama_array_content_flattened_witness :
    (InMsg.mk "user" (.arr w8Items) none none none).content = .arr w8Items ∧
    (∀ img ∈ w8Items.flatMap OllamaService.collectItemImages,
        OllamaService.encodeImage w8Utils img ≠ "") ∧
    OllamaService.processMessage w8Utils true
        (InMsg.mk "user" (.arr w8Items) none none none) =
      some { RMsg.ofInMsg (InMsg.mk "user" (.arr w8Items) none none none) with
             content := some (.str (String.intercalate "\n\n\n"
               (((w8Items.filter (fun it => it.type = "text")).map
                 (fun it => it.text)).map (·.getD "")))),
             images := if true = true
               then some ((w8Items.flatMap OllamaService.collectItemImages).map
                 (OllamaService.encodeImage w8Utils))
               else none } :=
  ⟨rfl, by decide,
   ollama_array_content_flattened w8Utils true _ w8Items rfl (by decide)⟩

/-- Worker: if one element maps to `none`, `List.mapM.loop` over `Option`
rejects, whatever the accumulator. -/
theorem list_mapM_loop_eq_none_of_mem {α β : Type} (f : α → Option β)
    (x : α) (hf : f x = none) :
    ∀ (l : List α), x ∈ l → ∀ (acc : List β),
      List.mapM.loop f l acc = none := by
  intro l
  induction l with
  | nil => intro hx; cases hx
  | cons a as ih =>
      intro hx acc
      rcases List.mem_cons.mp hx with rfl | hx'
      · simp [List.mapM.loop, hf]
      · cases hfa : f a with
        | none => simp [List.mapM.loop, hfa]
        | some b =>
            simp only [List.mapM.loop, hfa]
            exact ih hx' _

/-- If one element of a list maps to `none`, the whole `Option`-monadic map
rejects. -/
theorem list_mapM_eq_none_of_mem {α β : Type} (f : α → Option β)
    (l : List α) (x : α) (hx : x ∈ l) (hf : f x = none) :
    l.mapM f = none :=
  list_mapM_loop_eq_none_of_mem f x hf l hx []

/-- C5 (counterexample): on content that splits into a text item and two
remote images of which exactly one fails to fetch, the Anthropic adapter's
`convertPromptContent` rejects outright (`none`): the failure aborts
conversion of the whole message instead of dropping only the failed image. -/
theorem image_fetch_failure_aborts_anthropic :
    AnthropicService.convertPromptContent fetchFailUtils true "<p>hello</p>"
        = none ∧
    (∃ it ∈ fetchFailUtils.splitByImg "<p>hello</p>",
      it.type = "image" ∧ it.dataType = some "URL" ∧
        fetchFailUtils.fetchB64 it.data = none) ∧
    (∃ it ∈ fetchFailUtils.splitByImg "<p>hello</p>",
      it.type = "image" ∧ it.dataType = some "URL" ∧
        (fetchFailUtils.fetchB64 it.data).isSome = true) := by
  refine ⟨rfl, by decide, by decide⟩

/-- C5 (amended): when at least one remote image fetch succeeds, the Ollama
adapter's `convertPromptContent` drops each failed remote image and still
produces the message's text together with the local and the successfully
fetched images; the Anthropic adapter's `convertPromptContent`, by contrast,
rejects the whole conversion as soon as any remote image fetch fails. -/
theorem image_fetch_failure_localization_per_adapter (u : Utils)
    (content : String)
    (hsucc : ((u.splitByImg content).filter
        (fun it => it.dataType = some "URL")).filterMap
        (fun it => u.fetchB64 it.data) ≠ [])
    (hfail : ∃ it ∈ u.splitByImg content, it.type = "image" ∧
      it.dataType = some "URL" ∧ u.fetchB64 it.data = none) :
    OllamaService.convertPromptContent u true content =
      { content := String.intercalate "\n"
          (((u.splitByImg content).filter
            (fun it => it.type = "text")).map (·.data)),
        images := some
          ((((u.splitByImg content).filter
              (fun it => it.type = "image")).filter
              (fun it => it.dataType = some "base64")).map
              (fun i =>
                let base64Data := jsSplitChar ',' i.data
                if base64Data.length < 2 then i.data
                else (base64Data.get? 1).getD "")
            ++ ((u.splitByImg content).filter
                (fun it => it.dataType = some "URL")).filterMap
                (fun it => u.fetchB64 it.data)) } ∧
    AnthropicService.convertPromptContent u true content = none := by
  constructor
  · have hmap : (((u.splitByImg content).filter
        (fun it => it.dataType = some "URL")).map
        (fun it => u.fetchB64 it.data)).filterMap id =
        ((u.splitByImg content).filter
          (fun it => it.dataType = some "URL")).filterMap
          (fun it => u.fetchB64 it.data) := by
      rw [List.filterMap_map]
      rfl
    have hremlen : 0 < ((u.splitByImg content).filter
        (fun it => it.dataType = some "URL")).length := by
      rcases hfail with ⟨it, hmem, _, hurl, _⟩
      refine List.length_pos.mpr (fun hnil => ?_)
      have hin : it ∈ (u.splitByImg content).filter
          (fun it => it.dataType = some "URL") :=
        List.mem_filter.mpr ⟨hmem, by simp [hurl]⟩
      rw [hnil] at hin
      cases hin
    have hvallen : 0 < (((u.splitByImg content).filter
        (fun it => it.dataType = some "URL")).filterMap
        (fun it => u.fetchB64 it.data)).length :=
      List.length_pos.mpr hsucc
    simp only [OllamaService.convertPromptContent, hmap, if_true]
    rw [if_pos hremlen, if_pos hvallen]
  · rcases hfail with ⟨it, hmem, htype, hurl, hfetch⟩
    have hitem : AnthropicService.convertItem u it = none := by
      simp [AnthropicService.convertItem, htype, hurl, hfetch]
    simp only [AnthropicService.convertPromptContent, if_true]
    rw [list_mapM_eq_none_of_mem (AnthropicService.convertItem u)
      (u.splitByImg content) it hmem hitem]
    rfl

/-- Witness for `image_fetch_failure_localization_per_adapter` on
`fetchFailUtils`: one remote image fails, the other succeeds. -/
theorem image_fetch_failure_localization_per_adapter_witness :
    ((fetchFailUtils.splitByImg "<p>hello</p>").filter
        (fun it => it.dataType = some "URL")).filterMap
        (fun it => fetchFailUtils.fetchB64 it.data) ≠ [] ∧
    (∃ it ∈ fetchFailUtils.splitByImg "<p>hello</p>", it.type = "image" ∧
      it.dataType = some "URL" ∧ fetchFailUtils.fetchB64 it.data = none) ∧
    (OllamaService.convertPromptContent fetchFailUtils true "<p>hello</p>" =
      { content := String.intercalate "\n"
          (((fetchFailUtils.splitByImg "<p>hello</p>").filter
            (fun it => it.type = "text")).map (·.data)),
        images := some
          ((((fetchFailUtils.splitByImg "<p>hello</p>").filter
              (fun it => it.type = "image")).filter
              (fun it => it.dataType = some "base64")).map
              (fun i =>
                let base64Data := jsSplitChar ',' i.data
                if base64Data.length < 2 then i.data
                else (base64Data.get? 1).getD "")
            ++ ((fetchFailUtils.splitByImg "<p>hello</p>").filter
                (fun it => it.dataType = some "URL")).filterMap
                (fun it => fetchFailUtils.fetchB64 it.data)) } ∧
     AnthropicService.convertPromptContent fetchFailUtils true "<p>hello</p>"
        = none) :=
  ⟨by decide, by decide,
   image_fetch_failure_localization_per_adapter fetchFailUtils "<p>hello</p>"
     (by decide) (by decide)⟩
